import Mathlib

/-!
Verification of the distributed interrupt / task-lifecycle coordinator
(`agentscope_runtime/engine/deployers/utils/service_utils/interrupt/`):
the task-state store (local and Redis backends), the pub/sub signal
channel, and the generator-wrapping coordinator (`InterruptMixin`).

Modelling conventions:
* Python `time.time()` is an explicit `now : Nat` argument; a stored
  record is a pair `(value, expireAt)` with `expireAt = now + ttl`.
* The local backend's `_states` dict is an association list with
  first-match lookup (dict keys are unique, so first-match agrees with
  dict semantics); likewise `_subscribers`.
* The Redis backend's keyspace is an association list from full keys to
  `(string value, expireAt)`; `GET` treats a key whose expiry has been
  reached as absent (server-side expiry), and the CAS Lua script is
  transcribed directly.
* The asyncio execution of `run_and_stream` is serialised: the producer
  task's interaction with the FIFO queue is a trace of tagged messages
  (`DATA/DONE/CANCELLED/ERROR`), the main loop consumes that trace, and
  an inbound STOP signal is abstracted as the index `stopAfter` at which
  the listener's cancellation of the producer takes effect.  Raising
  `RuntimeError` at the CAS gate is the `contention` outcome.
-/

set_option autoImplicit false

universe u v

/-- Lifecycle states for distributed task execution (`TaskState` in
`base_backend.py`). -/
inductive TaskState where
  | IDLE
  | RUNNING
  | STOPPED
  | FINISHED
  | ERROR
deriving DecidableEq, Repr

/-- String value of a `TaskState`, as stored by the Redis backend
(`state.value` on the Python enum). -/
def TaskState.value : TaskState → String
  | .IDLE => "IDLE"
  | .RUNNING => "RUNNING"
  | .STOPPED => "STOPPED"
  | .FINISHED => "FINISHED"
  | .ERROR => "ERROR"

/-- Control signals for inter-service communication (`InterruptSignal`
in `base_backend.py`). -/
inductive InterruptSignal where
  | STOP
  | PAUSE
  | RESUME
deriving DecidableEq, Repr

/-- String value of an `InterruptSignal` (`signal.value` on the Python
enum). -/
def InterruptSignal.value : InterruptSignal → String
  | .STOP => "STOP"
  | .PAUSE => "PAUSE"
  | .RESUME => "RESUME"

/-- First-match lookup in an association list; models `dict.get`. -/
def lookupA {V : Type u} : List (String × V) → String → Option V
  | [], _ => none
  | (k, v) :: rest, key => if k = key then some v else lookupA rest key

/-- Remove every entry with the given key; models `del d[k]` /
`d.pop(k, None)` (a dict holds at most one entry per key). -/
def eraseA {V : Type u} : List (String × V) → String → List (String × V)
  | [], _ => []
  | (k, v) :: rest, key => if k = key then eraseA rest key else (k, v) :: eraseA rest key

/-- Overwriting insertion; models `d[k] = v`. -/
def insertA {V : Type u} (st : List (String × V)) (key : String) (v : V) :
    List (String × V) :=
  (key, v) :: eraseA st key

/-- The local backend's `_states` mapping: full key to
`(state, expire_at)`. -/
abbrev Store : Type := List (String × (TaskState × Nat))

/-- The Redis keyspace relevant to the backend: full key to
`(string value, expire_at)`. -/
abbrev RStore : Type := List (String × (String × Nat))

/-- Key prefixing shared by both backends
(`LocalInterruptBackend._get_full_key` and the `f"state:{key}"` literals
in `redis_backend.py`). -/
def getFullKey (key : String) : String := "state:" ++ key

/-- Model of `LocalInterruptBackend._get_state_logic`: read with lazy
expiration; an expired record is deleted on read and reported absent.
Returns the read result together with the (possibly mutated) store. -/
def getStateLogic (now : Nat) (st : Store) (key : String) :
    Option TaskState × Store :=
  match lookupA st (getFullKey key) with
  | none => (none, st)
  | some (state, expireAt) =>
    if now > expireAt then (none, eraseA st (getFullKey key))
    else (some state, st)

/-- Model of `LocalInterruptBackend._set_state_logic`: store the state
with expiration timestamp `time.time() + ttl`. -/
def setStateLogic (now : Nat) (st : Store) (key : String) (state : TaskState)
    (ttl : Nat) : Store :=
  insertA st (getFullKey key) (state, now + ttl)

/-- Model of `LocalInterruptBackend.compare_and_set_state`: atomic CAS
under the backend lock.  Returns the boolean result and the store. -/
def compareAndSetState (now : Nat) (st : Store) (key : String)
    (newState expectedState : TaskState) (negate : Bool) (ttl : Nat) :
    Bool × Store :=
  let g := getStateLogic now st key
  let mtch : Bool := decide (g.1 = some expectedState)
  let conditionMet : Bool := if negate then !mtch else mtch
  if conditionMet then (true, setStateLogic now g.2 key newState ttl)
  else (false, g.2)

/-- Model of `LocalInterruptBackend.delete_task_state`:
`self._states.pop(full_key, None)` — removal that never raises. -/
def deleteTaskState (st : Store) (key : String) : Store :=
  eraseA st (getFullKey key)

/-- Model of the Redis `GET` performed on `state:`-prefixed keys: a key
whose expiry has been reached is absent (Redis removes expired keys
server-side). -/
def redisGet (now : Nat) (rst : RStore) (fullKey : String) : Option String :=
  match lookupA rst fullKey with
  | none => none
  | some (v, expireAt) => if now < expireAt then some v else none

/-- Model of `RedisInterruptBackend.set_task_state`:
`SET state:key state.value EX ttl`. -/
def redisSetTaskState (now : Nat) (rst : RStore) (key : String)
    (state : TaskState) (ttl : Nat) : RStore :=
  insertA rst (getFullKey key) (state.value, now + ttl)

/-- Model of `RedisInterruptBackend.compare_and_set_state`: the Lua
script `get / compare / conditional set ex` transcribed directly;
a missing key compares unequal to every state string. -/
def redisCompareAndSetState (now : Nat) (rst : RStore) (key : String)
    (newState expectedState : TaskState) (negate : Bool) (ttl : Nat) :
    Bool × RStore :=
  let current := redisGet now rst (getFullKey key)
  let mtch : Bool := decide (current = some expectedState.value)
  let conditionMet : Bool := if negate then !mtch else mtch
  if conditionMet then
    (true, insertA rst (getFullKey key) (newState.value, now + ttl))
  else (false, rst)

/-- Model of `RedisInterruptBackend.delete_task_state`:
`DEL state:key`. -/
def redisDeleteTaskState (rst : RStore) (key : String) : RStore :=
  eraseA rst (getFullKey key)

/-- The local backend's `_subscribers` mapping: channel name to the
queues of its current subscribers; each queue is its list of pending
messages in FIFO order (`await q.put(m)` appends at the tail). -/
abbrev Subs : Type := List (String × List (List String))

/-- First-match lookup of a channel's subscriber queues. -/
def subLookup (subs : Subs) (channel : String) : Option (List (List String)) :=
  lookupA subs channel

/-- Model of `LocalInterruptBackend.publish_event`: if the channel is
registered, put the message on every subscribed queue; otherwise do
nothing. -/
def publishEvent : Subs → String → String → Subs
  | [], _, _ => []
  | (c, qs) :: rest, channel, message =>
    if c = channel then (c, qs.map (fun q => q ++ [message])) :: rest
    else (c, qs) :: publishEvent rest channel message

/-- Model of the subscription step of
`LocalInterruptBackend.subscribe_listen`: create a fresh empty queue and
register it under the channel
(`self._subscribers.setdefault(channel, set()).add(queue)`). -/
def subscribeJoin : Subs → String → Subs
  | [], channel => [(channel, [[]])]
  | (c, qs) :: rest, channel =>
    if c = channel then (c, qs ++ [[]]) :: rest
    else (c, qs) :: subscribeJoin rest channel

/-- The full mutable state of a `LocalInterruptBackend`: the `_states`
store and the `_subscribers` registry. -/
structure LocalBackendState where
  states : Store
  subs : Subs

/-- Model of `InterruptMixin._get_interrupt_key`:
`f"{user_id}:{session_id}"`. -/
def getInterruptKey (userId sessionId : String) : String :=
  userId ++ ":" ++ sessionId

/-- The channel name used by both `stop_chat` (publisher) and
`run_and_stream` (listener subscription): `f"chan:{task_id}"`. -/
def interruptChannel (taskId : String) : String := "chan:" ++ taskId

/-- Model of `InterruptMixin.stop_chat` against the local backend:
publish `InterruptSignal.STOP.value` on the key's channel; the `_states`
store is not consulted or written. -/
def stopChat (b : LocalBackendState) (userId sessionId : String) :
    LocalBackendState :=
  ⟨b.states,
   publishEvent b.subs (interruptChannel (getInterruptKey userId sessionId))
     InterruptSignal.STOP.value⟩

/-- Decision of `InterruptMixin._interrupt_signal_listener` on one
received message: cancel the producer task exactly on
`InterruptSignal.STOP.value`. -/
def listenerCancels (data : String) : Bool :=
  decide (data = InterruptSignal.STOP.value)

/-- Tagged messages flowing through `run_and_stream`'s internal
`asyncio.Queue`. -/
inductive Tag (α ε : Type u) where
  | DATA (item : α)
  | DONE
  | CANCELLED
  | ERROR (e : ε)
deriving DecidableEq, Repr

/-- How the wrapped producer would terminate if left uninterrupted:
normal exhaustion, or a non-cancellation exception `e` after all its
items. -/
inductive ProducerEnd (ε : Type u) where
  | normal
  | raiseExc (e : ε)
deriving DecidableEq, Repr

/-- How `run_and_stream`'s main `while True` loop exits: `DONE`,
`CANCELLED`, `ERROR e` (re-raised), or never (an empty queue would block
forever). -/
inductive LoopExit (ε : Type u) where
  | done
  | cancelledExit
  | raised (e : ε)
  | blocked
deriving DecidableEq, Repr

/-- Caller-visible outcome of a `run_and_stream` call: normal
completion, termination by cancellation, the producer's re-raised
exception, the `RuntimeError` of the CAS gate, or blocking forever. -/
inductive Outcome (ε : Type u) where
  | completed
  | stopped
  | errored (e : ε)
  | contention
  | blocked
deriving DecidableEq, Repr

/-- Whether the STOP-triggered cancellation point `stopAfter` lands
while the producer is still emitting (after `n` of `len` items). -/
def stopCancels (stopAfter : Option Nat) (len : Nat) : Bool :=
  match stopAfter with
  | some n => decide (n ≤ len)
  | none => false

/-- Terminal queue message of an uninterrupted producer
(`generator_wrapper`): `DONE` on exhaustion, `(ERROR, e)` on an
exception. -/
def endTag {α ε : Type u} : ProducerEnd ε → Tag α ε
  | .normal => .DONE
  | .raiseExc e => .ERROR e

/-- The FIFO trace `generator_wrapper` pushes through the queue: `DATA`
for each yielded item, then the terminal tag; if cancellation lands
after `n` items, `DATA` for those `n` items then `CANCELLED`. -/
def wrapperTrace {α ε : Type u} (items : List α) (ending : ProducerEnd ε)
    (stopAfter : Option Nat) : List (Tag α ε) :=
  match stopAfter with
  | some n =>
    if n ≤ items.length then (items.take n).map Tag.DATA ++ [Tag.CANCELLED]
    else items.map Tag.DATA ++ [endTag ending]
  | none => items.map Tag.DATA ++ [endTag ending]

/-- Store effect of `generator_wrapper`: `set_task_state(RUNNING)` on
entry (default ttl 3600), and `set_task_state(ERROR)` in the exception
branch; a cancelled producer never reaches the exception branch. -/
def wrapperStore {ε : Type u} (now : Nat) (st : Store) (key : String)
    (ending : ProducerEnd ε) (stopAfter : Option Nat) (len : Nat) : Store :=
  let st1 := setStateLogic now st key .RUNNING 3600
  if stopCancels stopAfter len then st1
  else
    match ending with
    | .normal => st1
    | .raiseExc _ => setStateLogic now st1 key .ERROR 3600

/-- The main loop of `run_and_stream` consuming the queue trace: yield
`DATA` items in order, break on `DONE`/`CANCELLED`, re-raise on
`ERROR`. -/
def consumeQueue {α ε : Type u} : List (Tag α ε) → List α × LoopExit ε
  | [] => ([], .blocked)
  | .DATA a :: rest =>
    let r := consumeQueue rest
    (a :: r.1, r.2)
  | .DONE :: _ => ([], .done)
  | .CANCELLED :: _ => ([], .cancelledExit)
  | .ERROR e :: _ => ([], .raised e)

/-- Caller-visible outcome determined by the loop exit. -/
def exitOutcome {ε : Type u} : LoopExit ε → Outcome ε
  | .done => .completed
  | .cancelledExit => .stopped
  | .raised e => .errored e
  | .blocked => .blocked

/-- Final-state reconciliation in `run_and_stream`'s `finally` block:
`final_state = STOPPED if is_interrupted else FINISHED`; read the
current state and write `final_state` with ttl 600 unless the current
state is `ERROR`. -/
def finalizeState (now : Nat) (st : Store) (key : String)
    (isInterrupted : Bool) : Store :=
  let finalS := if isInterrupted then TaskState.STOPPED else TaskState.FINISHED
  let g := getStateLogic now st key
  if g.1 = some TaskState.ERROR then g.2
  else setStateLogic now g.2 key finalS 600

/-- Result of one `run_and_stream` call: the items yielded to the
caller, how the call ended, and the final `_states` store. -/
structure RunResult (α ε : Type u) where
  yielded : List α
  outcome : Outcome ε
  store : Store
deriving DecidableEq

/-- Serialised model of `InterruptMixin.run_and_stream`: the CAS gate
(`new_state=RUNNING, expected=RUNNING, negate=True, ttl=3600`), then —
only if the gate succeeds — the producer's store writes, the queue
trace, the consuming loop, and the `finally` reconciliation.
`is_interrupted` is set exactly when the loop observes `CANCELLED`. -/
def runAndStream {α ε : Type u} (now : Nat) (st : Store)
    (userId sessionId : String) (items : List α) (ending : ProducerEnd ε)
    (stopAfter : Option Nat) : RunResult α ε :=
  let key := getInterruptKey userId sessionId
  let cas := compareAndSetState now st key .RUNNING .RUNNING true 3600
  if cas.1 then
    let stProd := wrapperStore now cas.2 key ending stopAfter items.length
    let consumed := consumeQueue (wrapperTrace items ending stopAfter)
    let isInterrupted : Bool :=
      match consumed.2 with
      | .cancelledExit => true
      | _ => false
    ⟨consumed.1, exitOutcome consumed.2, finalizeState now stProd key isInterrupted⟩
  else ⟨[], .contention, cas.2⟩

/-! Helper lemmas about the association-list primitives. -/

theorem lookupA_eraseA_self {V : Type u} (st : List (String × V)) (k : String) :
    lookupA (eraseA st k) k = none := by
  induction st with
  | nil => rfl
  | cons p rest ih =>
    obtain ⟨k1, v1⟩ := p
    by_cases h : k1 = k
    · simpa [eraseA, h] using ih
    · simp [eraseA, lookupA, h, ih]

theorem lookupA_eraseA_ne {V : Type u} (st : List (String × V)) (k k2 : String)
    (h : k2 ≠ k) : lookupA (eraseA st k) k2 = lookupA st k2 := by
  induction st with
  | nil => rfl
  | cons p rest ih =>
    obtain ⟨k1, v1⟩ := p
    by_cases h1 : k1 = k
    · subst h1
      have : k1 ≠ k2 := fun hc => h (hc ▸ rfl)
      simp [eraseA, lookupA, this, ih]
    · by_cases h2 : k1 = k2
      · subst h2
        simp [eraseA, lookupA, h1]
      · simp [eraseA, lookupA, h1, h2, ih]

theorem lookupA_insertA_self {V : Type u} (st : List (String × V)) (k : String)
    (v : V) : lookupA (insertA st k v) k = some v := by
  simp [insertA, lookupA]

theorem lookupA_insertA_ne {V : Type u} (st : List (String × V)) (k k2 : String)
    (v : V) (h : k2 ≠ k) : lookupA (insertA st k v) k2 = lookupA st k2 := by
  have : k ≠ k2 := fun hc => h (hc ▸ rfl)
  simp [insertA, lookupA, this, lookupA_eraseA_ne st k k2 h]

theorem eraseA_lookup_none {V : Type u} (st : List (String × V)) (k : String)
    (h : lookupA st k = none) : eraseA st k = st := by
  induction st with
  | nil => rfl
  | cons p rest ih =>
    obtain ⟨k1, v1⟩ := p
    by_cases h1 : k1 = k
    · simp [lookupA, h1] at h
    · simp only [lookupA, if_neg h1] at h
      simp [eraseA, h1, ih h]

/-! Helper lemmas about keys. -/

theorem getFullKey_inj (a b : String) (h : getFullKey a = getFullKey b) :
    a = b := by
  have hd := congrArg String.data h
  simp only [getFullKey, String.data_append] at hd
  exact String.ext (List.append_cancel_left hd)

/-! Helper lemmas about the local store operations. -/

theorem getStateLogic_snd_of_fst_some (now : Nat) (st : Store) (key : String)
    (s : TaskState) (h : (getStateLogic now st key).1 = some s) :
    (getStateLogic now st key).2 = st := by
  unfold getStateLogic at h ⊢
  cases hl : lookupA st (getFullKey key) with
  | none => rfl
  | some p =>
    obtain ⟨s1, e1⟩ := p
    by_cases ht : now > e1 <;> simp [hl, ht] at h ⊢

theorem lookupA_getStateLogic_snd_ne (now : Nat) (st : Store) (key fk : String)
    (h : fk ≠ getFullKey key) :
    lookupA (getStateLogic now st key).2 fk = lookupA st fk := by
  unfold getStateLogic
  cases hl : lookupA st (getFullKey key) with
  | none => rfl
  | some p =>
    obtain ⟨s1, e1⟩ := p
    by_cases ht : now > e1 <;>
      simp [ht, lookupA_eraseA_ne st (getFullKey key) fk h]

theorem getStateLogic_fst_snd (now : Nat) (st : Store) (key : String) :
    (getStateLogic now (getStateLogic now st key).2 key).1 =
      (getStateLogic now st key).1 := by
  cases hl : lookupA st (getFullKey key) with
  | none => simp [getStateLogic, hl]
  | some p =>
    obtain ⟨s1, e1⟩ := p
    by_cases ht : now > e1
    · simp [getStateLogic, hl, ht, lookupA_eraseA_self]
    · simp [getStateLogic, hl, ht]

theorem getStateLogic_congr (now : Nat) (st1 st2 : Store) (key : String)
    (h : lookupA st1 (getFullKey key) = lookupA st2 (getFullKey key)) :
    (getStateLogic now st1 key).1 = (getStateLogic now st2 key).1 := by
  unfold getStateLogic
  rw [h]
  cases lookupA st2 (getFullKey key) with
  | none => rfl
  | some p =>
    obtain ⟨s1, e1⟩ := p
    by_cases ht : now > e1 <;> simp [ht]

theorem getStateLogic_setStateLogic_self (now : Nat) (st : Store) (key : String)
    (s : TaskState) (ttl : Nat) :
    getStateLogic now (setStateLogic now st key s ttl) key =
      (some s, setStateLogic now st key s ttl) := by
  have h : ¬ (now > now + ttl) := by omega
  simp [getStateLogic, setStateLogic, lookupA_insertA_self, h]

theorem casGate_fail (now : Nat) (st : Store) (key : String) (ttl : Nat)
    (h : (getStateLogic now st key).1 = some TaskState.RUNNING) :
    compareAndSetState now st key TaskState.RUNNING TaskState.RUNNING true ttl =
      (false, st) := by
  unfold compareAndSetState
  simp [h, getStateLogic_snd_of_fst_some now st key _ h]

theorem casGate_succeed (now : Nat) (st : Store) (key : String) (ttl : Nat)
    (h : (getStateLogic now st key).1 ≠ some TaskState.RUNNING) :
    compareAndSetState now st key TaskState.RUNNING TaskState.RUNNING true ttl =
      (true, setStateLogic now (getStateLogic now st key).2 key TaskState.RUNNING ttl) := by
  unfold compareAndSetState
  simp [h]

/-! Helper lemmas about the queue trace. -/

theorem consumeQueue_map_data {α ε : Type u} (items : List α)
    (tail : List (Tag α ε)) :
    consumeQueue (items.map Tag.DATA ++ tail) =
      (items ++ (consumeQueue tail).1, (consumeQueue tail).2) := by
  induction items with
  | nil => simp [consumeQueue]
  | cons a rest ih => simp [consumeQueue, ih]

theorem exitOutcome_ne_contention {ε : Type u} (x : LoopExit ε) :
    exitOutcome x ≠ Outcome.contention := by
  cases x <;> simp [exitOutcome]

/-! Helper lemmas about the pub/sub registry. -/

theorem subLookup_publishEvent_self (S : Subs) (ch m : String) :
    subLookup (publishEvent S ch m) ch =
      (subLookup S ch).map (List.map (fun q => q ++ [m])) := by
  induction S with
  | nil => rfl
  | cons p rest ih =>
    obtain ⟨c, qs⟩ := p
    by_cases h : c = ch
    · simp [publishEvent, subLookup, lookupA, h]
    · simp only [publishEvent, if_neg h]
      simpa [subLookup, lookupA, h] using ih

theorem subLookup_publishEvent_ne (S : Subs) (ch ch2 m : String) (h : ch2 ≠ ch) :
    subLookup (publishEvent S ch m) ch2 = subLookup S ch2 := by
  induction S with
  | nil => rfl
  | cons p rest ih =>
    obtain ⟨c, qs⟩ := p
    by_cases h1 : c = ch
    · subst h1
      have : c ≠ ch2 := fun hc => h (hc ▸ rfl)
      simp [publishEvent, subLookup, lookupA, this]
    · by_cases h2 : c = ch2
      · subst h2
        simp [publishEvent, subLookup, lookupA, h1]
      · simp only [publishEvent, if_neg h1]
        simpa [subLookup, lookupA, h2] using ih

theorem publishEvent_no_subscriber (S : Subs) (ch m : String)
    (h : subLookup S ch = none ∨ subLookup S ch = some []) :
    publishEvent S ch m = S := by
  induction S with
  | nil => rfl
  | cons p rest ih =>
    obtain ⟨c, qs⟩ := p
    by_cases h1 : c = ch
    · subst h1
      have hqs : qs = [] := by
        rcases h with h | h
        · simp [subLookup, lookupA] at h
        · simpa [subLookup, lookupA] using h
      subst hqs
      simp [publishEvent]
    · have h2 : subLookup rest ch = none ∨ subLookup rest ch = some [] := by
        simpa [subLookup, lookupA, h1] using h
      simp [publishEvent, h1, ih h2]

theorem subLookup_subscribeJoin_self (S : Subs) (ch : String) :
    subLookup (subscribeJoin S ch) ch =
      some ((subLookup S ch).getD [] ++ [[]]) := by
  induction S with
  | nil => simp [subscribeJoin, subLookup, lookupA]
  | cons p rest ih =>
    obtain ⟨c, qs⟩ := p
    by_cases h : c = ch
    · simp [subscribeJoin, subLookup, lookupA, h]
    · simp only [subscribeJoin, if_neg h]
      simpa [subLookup, lookupA, h] using ih

/-- C1: while the persisted state of a task key is RUNNING (and not
expired), a second `run_and_stream` call for the same
`(user_id, session_id)` fails immediately with the "task already
running" error (`contention`), yields nothing, and leaves the store
unchanged; when the persisted state is absent or any non-RUNNING state,
the CAS gate succeeds, transitions the key to RUNNING, and the call
proceeds (its outcome is not `contention`). -/
theorem c1_mutual_exclusion_gate {α ε : Type} (now : Nat) (st : Store)
    (userId sessionId : String) (items : List α) (ending : ProducerEnd ε)
    (stopAfter : Option Nat) :
    ((getStateLogic now st (getInterruptKey userId sessionId)).1 =
        some TaskState.RUNNING →
      runAndStream now st userId sessionId items ending stopAfter =
        ⟨[], Outcome.contention, st⟩)
    ∧ ((getStateLogic now st (getInterruptKey userId sessionId)).1 ≠
        some TaskState.RUNNING →
      (compareAndSetState now st (getInterruptKey userId sessionId)
          TaskState.RUNNING TaskState.RUNNING true 3600).1 = true
      ∧ (getStateLogic now
          (compareAndSetState now st (getInterruptKey userId sessionId)
            TaskState.RUNNING TaskState.RUNNING true 3600).2
          (getInterruptKey userId sessionId)).1 = some TaskState.RUNNING
      ∧ (runAndStream now st userId sessionId items ending stopAfter).outcome ≠
          Outcome.contention) := by
  constructor
  · intro h
    simp [runAndStream,
      casGate_fail now st (getInterruptKey userId sessionId) 3600 h]
  · intro h
    have hg := casGate_succeed now st (getInterruptKey userId sessionId) 3600 h
    refine ⟨by rw [hg], ?_, ?_⟩
    · rw [hg]
      simp [getStateLogic_setStateLogic_self]
    · simp only [runAndStream, hg]
      simp only [if_true]
      exact exitOutcome_ne_contention _

/-- C1 witness: with the key RUNNING and unexpired, the call returns the
contention result and leaves the store unchanged. -/
theorem c1_mutual_exclusion_gate_witness :
    runAndStream 0 [("state:u:s", (TaskState.RUNNING, 100))] "u" "s"
        ([] : List Nat) (ProducerEnd.normal : ProducerEnd Nat) none =
      ⟨[], Outcome.contention, [("state:u:s", (TaskState.RUNNING, 100))]⟩ :=
  (c1_mutual_exclusion_gate 0 [("state:u:s", (TaskState.RUNNING, 100))] "u" "s"
    [] ProducerEnd.normal none).1 (by decide)

/-- C2: in both backends, `compare_and_set_state` returns exactly
`negate XOR (current == expected_state)` (absent compares unequal to
every state); on `true` it writes `new_state` with expiry `now + ttl`
leaving every other full key's record unchanged; on `false` it leaves
the observable stored state untouched (in the local backend the read may
lazily evict an already-expired — hence already logically absent —
record, so untouched is stated as preservation of every key's readable
state). -/
theorem c2_cas_correctness (now : Nat) (st : Store) (rst : RStore)
    (key : String) (newState expectedState : TaskState) (negate : Bool)
    (ttl : Nat) :
    ((compareAndSetState now st key newState expectedState negate ttl).1 =
        (negate ^^ decide ((getStateLogic now st key).1 = some expectedState)))
    ∧ ((compareAndSetState now st key newState expectedState negate ttl).1 = true →
        lookupA (compareAndSetState now st key newState expectedState negate ttl).2
            (getFullKey key) = some (newState, now + ttl)
        ∧ ∀ fk, fk ≠ getFullKey key →
            lookupA (compareAndSetState now st key newState expectedState negate ttl).2 fk =
              lookupA st fk)
    ∧ ((compareAndSetState now st key newState expectedState negate ttl).1 = false →
        ∀ k2, (getStateLogic now
            (compareAndSetState now st key newState expectedState negate ttl).2 k2).1 =
          (getStateLogic now st k2).1)
    ∧ ((redisCompareAndSetState now rst key newState expectedState negate ttl).1 =
        (negate ^^ decide (redisGet now rst (getFullKey key) = some expectedState.value)))
    ∧ ((redisCompareAndSetState now rst key newState expectedState negate ttl).1 = true →
        lookupA (redisCompareAndSetState now rst key newState expectedState negate ttl).2
            (getFullKey key) = some (newState.value, now + ttl)
        ∧ ∀ fk, fk ≠ getFullKey key →
            lookupA (redisCompareAndSetState now rst key newState expectedState negate ttl).2 fk =
              lookupA rst fk)
    ∧ ((redisCompareAndSetState now rst key newState expectedState negate ttl).1 = false →
        (redisCompareAndSetState now rst key newState expectedState negate ttl).2 = rst) := by
  refine ⟨?_, ?_, ?_, ?_, ?_, ?_⟩
  · by_cases hp : (getStateLogic now st key).1 = some expectedState <;>
      cases negate <;> simp [compareAndSetState, hp]
  · intro htrue
    have hsnd : (compareAndSetState now st key newState expectedState negate ttl).2 =
        setStateLogic now (getStateLogic now st key).2 key newState ttl := by
      by_cases hp : (getStateLogic now st key).1 = some expectedState <;>
        cases negate <;> simp [compareAndSetState, hp] at htrue ⊢
    rw [hsnd]
    constructor
    · exact lookupA_insertA_self _ _ _
    · intro fk hfk
      rw [setStateLogic, lookupA_insertA_ne _ _ _ _ hfk]
      exact lookupA_getStateLogic_snd_ne now st key fk hfk
  · intro hfalse
    have hsnd : (compareAndSetState now st key newState expectedState negate ttl).2 =
        (getStateLogic now st key).2 := by
      by_cases hp : (getStateLogic now st key).1 = some expectedState <;>
        cases negate <;> simp [compareAndSetState, hp] at hfalse ⊢
    rw [hsnd]
    intro k2
    by_cases hk : k2 = key
    · subst hk
      exact getStateLogic_fst_snd now st k2
    · exact getStateLogic_congr now _ st k2
        (lookupA_getStateLogic_snd_ne now st key (getFullKey k2)
          (fun hc => hk (getFullKey_inj _ _ hc)))
  · by_cases hp : redisGet now rst (getFullKey key) = some expectedState.value <;>
      cases negate <;> simp [redisCompareAndSetState, hp]
  · intro htrue
    have hsnd : (redisCompareAndSetState now rst key newState expectedState negate ttl).2 =
        insertA rst (getFullKey key) (newState.value, now + ttl) := by
      by_cases hp : redisGet now rst (getFullKey key) = some expectedState.value <;>
        cases negate <;> simp [redisCompareAndSetState, hp] at htrue ⊢
    rw [hsnd]
    exact ⟨lookupA_insertA_self _ _ _,
      fun fk hfk => lookupA_insertA_ne _ _ _ _ hfk⟩
  · intro hfalse
    by_cases hp : redisGet now rst (getFullKey key) = some expectedState.value <;>
      cases negate <;> simp [redisCompareAndSetState, hp] at hfalse ⊢

/-- C2 witness: a successful negated CAS on an empty store writes
RUNNING with the requested ttl and leaves another key unread; a failed
plain CAS leaves the readable state of every key unchanged. -/
theorem c2_cas_correctness_witness :
    (lookupA (compareAndSetState 0 ([] : Store) "k" TaskState.RUNNING
        TaskState.RUNNING true 5).2 (getFullKey "k") =
      some (TaskState.RUNNING, 0 + 5))
    ∧ (lookupA (compareAndSetState 0 ([] : Store) "k" TaskState.RUNNING
        TaskState.RUNNING true 5).2 (getFullKey "k2") =
      lookupA ([] : Store) (getFullKey "k2"))
    ∧ ((getStateLogic 0 (compareAndSetState 0 ([] : Store) "k"
        TaskState.RUNNING TaskState.RUNNING false 5).2 "k").1 =
      (getStateLogic 0 ([] : Store) "k").1) :=
  ⟨((c2_cas_correctness 0 [] [] "k" TaskState.RUNNING TaskState.RUNNING true 5).2.1
      (by decide)).1,
   ((c2_cas_correctness 0 [] [] "k" TaskState.RUNNING TaskState.RUNNING true 5).2.1
      (by decide)).2 (getFullKey "k2") (by decide),
   ((c2_cas_correctness 0 [] [] "k" TaskState.RUNNING TaskState.RUNNING false 5).2.2.1
      (by decide)) "k"⟩

/-- C3: when the producer raises a non-cancellation exception `e` after
yielding its items, `run_and_stream` yields those items, persists ERROR
for the key, re-raises `e` to the caller through the queue's ERROR tag,
and the final reconciliation leaves the ERROR state in place (it is not
overwritten with FINISHED or STOPPED). -/
theorem c3_error_precedence {α ε : Type} (now : Nat) (st : Store)
    (userId sessionId : String) (items : List α) (e : ε)
    (h : (getStateLogic now st (getInterruptKey userId sessionId)).1 ≠
      some TaskState.RUNNING) :
    (runAndStream now st userId sessionId items (ProducerEnd.raiseExc e)
        none).yielded = items
    ∧ (runAndStream now st userId sessionId items (ProducerEnd.raiseExc e)
        none).outcome = Outcome.errored e
    ∧ (getStateLogic now
        (runAndStream now st userId sessionId items (ProducerEnd.raiseExc e)
          none).store (getInterruptKey userId sessionId)).1 =
      some TaskState.ERROR
    ∧ wrapperTrace items (ProducerEnd.raiseExc e) none =
        items.map Tag.DATA ++ [Tag.ERROR e] := by
  have hg := casGate_succeed now st (getInterruptKey userId sessionId) 3600 h
  have htrace :
      consumeQueue (wrapperTrace items (ProducerEnd.raiseExc e)
        (none : Option Nat)) = (items, LoopExit.raised e) := by
    simp [wrapperTrace, endTag, consumeQueue_map_data, consumeQueue]
  simp only [runAndStream, hg, if_true, htrace]
  simp only [wrapperStore, stopCancels, finalizeState,
    getStateLogic_setStateLogic_self]
  simp [exitOutcome, getStateLogic_setStateLogic_self, wrapperTrace, endTag]

/-- C3 witness: a producer raising 7 after yielding two items ends with
the items delivered, the error re-raised, and ERROR persisted. -/
theorem c3_error_precedence_witness :
    (runAndStream 0 ([] : Store) "u" "s" [10, 20] (ProducerEnd.raiseExc 7)
        none).yielded = [10, 20]
    ∧ (runAndStream 0 ([] : Store) "u" "s" [10, 20] (ProducerEnd.raiseExc 7)
        none).outcome = Outcome.errored 7
    ∧ (getStateLogic 0
        (runAndStream 0 ([] : Store) "u" "s" [10, 20] (ProducerEnd.raiseExc 7)
          none).store (getInterruptKey "u" "s")).1 = some TaskState.ERROR :=
  ⟨(c3_error_precedence 0 [] "u" "s" [10, 20] 7 (by decide)).1,
   (c3_error_precedence 0 [] "u" "s" [10, 20] 7 (by decide)).2.1,
   (c3_error_precedence 0 [] "u" "s" [10, 20] 7 (by decide)).2.2.1⟩

/-- C4: when a STOP published by `stop_chat` reaches the listener — which
cancels the producer exactly on the STOP signal value — after `n` of the
producer's items, the stream ends with no item past the first `n`
yielded, the call reports the stopped outcome, and the key's final
persisted state is STOPPED. -/
theorem c4_stop_propagates {α ε : Type} (now : Nat) (st : Store)
    (userId sessionId : String) (items : List α) (ending : ProducerEnd ε)
    (n : Nat)
    (hgate : (getStateLogic now st (getInterruptKey userId sessionId)).1 ≠
      some TaskState.RUNNING)
    (hn : n ≤ items.length) :
    listenerCancels InterruptSignal.STOP.value = true
    ∧ (runAndStream now st userId sessionId items ending (some n)).yielded =
        items.take n
    ∧ (runAndStream now st userId sessionId items ending (some n)).outcome =
        Outcome.stopped
    ∧ (getStateLogic now
        (runAndStream now st userId sessionId items ending (some n)).store
        (getInterruptKey userId sessionId)).1 = some TaskState.STOPPED := by
  have hg := casGate_succeed now st (getInterruptKey userId sessionId) 3600 hgate
  have htrace :
      consumeQueue (wrapperTrace items ending (some n)) =
        (items.take n, LoopExit.cancelledExit) := by
    simp only [wrapperTrace, if_pos hn]
    rw [consumeQueue_map_data]
    simp [consumeQueue]
  simp only [runAndStream, hg, if_true, htrace]
  simp only [wrapperStore, stopCancels, hn, finalizeState,
    getStateLogic_setStateLogic_self]
  simp [exitOutcome, listenerCancels, getStateLogic_setStateLogic_self]

/-- C4 witness: stopping an infinite-intent producer after two of its
items yields exactly those two items and persists STOPPED. -/
theorem c4_stop_propagates_witness :
    (runAndStream 0 ([] : Store) "u" "s" [1, 2, 3, 4]
        (ProducerEnd.normal : ProducerEnd Nat) (some 2)).yielded = [1, 2]
    ∧ (runAndStream 0 ([] : Store) "u" "s" [1, 2, 3, 4]
        (ProducerEnd.normal : ProducerEnd Nat) (some 2)).outcome =
      Outcome.stopped
    ∧ (getStateLogic 0
        (runAndStream 0 ([] : Store) "u" "s" [1, 2, 3, 4]
          (ProducerEnd.normal : ProducerEnd Nat) (some 2)).store
        (getInterruptKey "u" "s")).1 = some TaskState.STOPPED :=
  ⟨(c4_stop_propagates 0 [] "u" "s" [1, 2, 3, 4] ProducerEnd.normal 2
      (by decide) (by decide)).2.1,
   (c4_stop_propagates 0 [] "u" "s" [1, 2, 3, 4] ProducerEnd.normal 2
      (by decide) (by decide)).2.2.1,
   (c4_stop_propagates 0 [] "u" "s" [1, 2, 3, 4] ProducerEnd.normal 2
      (by decide) (by decide)).2.2.2⟩

/-- C5: a producer that yields a finite sequence and raises nothing,
with no intervening stop signal, has its items delivered to the caller
exactly and in order, followed by normal completion. -/
theorem c5_ordering {α ε : Type} (now : Nat) (st : Store)
    (userId sessionId : String) (items : List α)
    (h : (getStateLogic now st (getInterruptKey userId sessionId)).1 ≠
      some TaskState.RUNNING) :
    (runAndStream now st userId sessionId items
        (ProducerEnd.normal : ProducerEnd ε) none).yielded = items
    ∧ (runAndStream now st userId sessionId items
        (ProducerEnd.normal : ProducerEnd ε) none).outcome =
      Outcome.completed := by
  have hg := casGate_succeed now st (getInterruptKey userId sessionId) 3600 h
  have htrace :
      consumeQueue (wrapperTrace items (ProducerEnd.normal : ProducerEnd ε)
        (none : Option Nat)) = (items, LoopExit.done) := by
    simp [wrapperTrace, endTag, consumeQueue_map_data, consumeQueue]
  simp only [runAndStream, hg, if_true, htrace]
  simp [exitOutcome]

/-- C5 witness: the items `[3, 1, 2]` come back exactly and in order,
then completion. -/
theorem c5_ordering_witness :
    (runAndStream 0 ([] : Store) "u" "s" [3, 1, 2]
        (ProducerEnd.normal : ProducerEnd Nat) none).yielded = [3, 1, 2]
    ∧ (runAndStream 0 ([] : Store) "u" "s" [3, 1, 2]
        (ProducerEnd.normal : ProducerEnd Nat) none).outcome =
      Outcome.completed :=
  c5_ordering 0 [] "u" "s" [3, 1, 2] (by decide)

/-- C6: a record written at `now1` with time-to-live `ttl`, read at a
time `now2` more than `ttl` past the write, is reported absent, the
local backend lazily deletes the expired record during that read, and a
subsequent CAS-gated start (`new_state=RUNNING, expected=RUNNING,
negate=true`) for the key succeeds. -/
theorem c6_ttl_expiry (now1 now2 : Nat) (st : Store) (key : String)
    (state : TaskState) (ttl : Nat) (h : now1 + ttl < now2) :
    (getStateLogic now2 (setStateLogic now1 st key state ttl) key).1 = none
    ∧ lookupA (getStateLogic now2 (setStateLogic now1 st key state ttl) key).2
        (getFullKey key) = none
    ∧ (compareAndSetState now2 (setStateLogic now1 st key state ttl) key
        TaskState.RUNNING TaskState.RUNNING true 3600).1 = true := by
  have hfst : (getStateLogic now2 (setStateLogic now1 st key state ttl) key).1 =
      none := by
    simp [getStateLogic, setStateLogic, lookupA_insertA_self, h]
  refine ⟨hfst, ?_, ?_⟩
  · simp only [getStateLogic, setStateLogic, lookupA_insertA_self, if_pos h]
    exact lookupA_eraseA_self _ _
  · rw [casGate_succeed now2 _ key 3600 (by rw [hfst]; exact fun hc => by cases hc)]

/-- C6 witness: a RUNNING record with ttl 1 written at time 0 is absent
at time 2, its record is evicted by the read, and a fresh gated start
succeeds. -/
theorem c6_ttl_expiry_witness :
    (getStateLogic 2 (setStateLogic 0 ([] : Store) "k" TaskState.RUNNING 1)
        "k").1 = none
    ∧ lookupA (getStateLogic 2 (setStateLogic 0 ([] : Store) "k"
        TaskState.RUNNING 1) "k").2 (getFullKey "k") = none
    ∧ (compareAndSetState 2 (setStateLogic 0 ([] : Store) "k"
        TaskState.RUNNING 1) "k" TaskState.RUNNING TaskState.RUNNING true
        3600).1 = true :=
  c6_ttl_expiry 0 2 [] "k" TaskState.RUNNING 1 (by decide)

/-- C7: a published message lands at the tail of every queue subscribed
to exactly that channel at publish time and touches no other channel's
queues; a subscriber that joins the channel afterwards is registered
with a fresh empty queue, so it never sees the earlier message. -/
theorem c7_pubsub_delivery (S : Subs) (ch m : String) :
    subLookup (publishEvent S ch m) ch =
      (subLookup S ch).map (List.map (fun q => q ++ [m]))
    ∧ (∀ ch2, ch2 ≠ ch → subLookup (publishEvent S ch m) ch2 = subLookup S ch2)
    ∧ subLookup (subscribeJoin (publishEvent S ch m) ch) ch =
        some (((subLookup S ch).getD []).map (fun q => q ++ [m]) ++ [[]])
    ∧ ((subLookup (subscribeJoin (publishEvent S ch m) ch) ch).getD
        []).getLast? = some [] := by
  have hpub := subLookup_publishEvent_self S ch m
  have hjoin := subLookup_subscribeJoin_self (publishEvent S ch m) ch
  have hjoin2 : subLookup (subscribeJoin (publishEvent S ch m) ch) ch =
      some (((subLookup S ch).getD []).map (fun q => q ++ [m]) ++ [[]]) := by
    rw [hjoin, hpub]
    cases subLookup S ch <;> simp
  refine ⟨hpub, fun ch2 h2 => subLookup_publishEvent_ne S ch ch2 m h2, hjoin2, ?_⟩
  rw [hjoin2]
  simp [List.getLast?_concat]

/-- C7 witness: with one subscriber on channel "a", a publish reaches
that queue only, and a later joiner on "a" starts empty. -/
theorem c7_pubsub_delivery_witness :
    subLookup (publishEvent [("a", [[]]), ("b", [[]])] "a" "m") "a" =
      some [["m"]]
    ∧ subLookup (publishEvent [("a", [[]]), ("b", [[]])] "a" "m") "b" =
      subLookup [("a", [[]]), ("b", [[]])] "b"
    ∧ ((subLookup (subscribeJoin (publishEvent [("a", [[]]), ("b", [[]])]
        "a" "m") "a") "a").getD []).getLast? = some [] :=
  ⟨(c7_pubsub_delivery [("a", [[]]), ("b", [[]])] "a" "m").1,
   (c7_pubsub_delivery [("a", [[]]), ("b", [[]])] "a" "m").2.1 "b" (by decide),
   (c7_pubsub_delivery [("a", [[]]), ("b", [[]])] "a" "m").2.2.2⟩

/-- C8: `stop_chat` never touches the `_states` store, and when the
key's channel has no subscribed queue the publish is a silent no-op that
leaves the whole backend state unchanged (and, being a total function,
raises nothing). -/
theorem c8_idempotent_stop (b : LocalBackendState) (userId sessionId : String) :
    (stopChat b userId sessionId).states = b.states
    ∧ (subLookup b.subs (interruptChannel (getInterruptKey userId sessionId)) = none
        ∨ subLookup b.subs (interruptChannel (getInterruptKey userId sessionId)) =
          some [] →
      stopChat b userId sessionId = b) := by
  refine ⟨rfl, fun h => ?_⟩
  obtain ⟨states, subs⟩ := b
  simp only [stopChat]
  rw [publishEvent_no_subscriber _ _ _ h]

/-- C8 witness: stopping a key whose channel has no subscriber leaves an
example backend state exactly as it was. -/
theorem c8_idempotent_stop_witness :
    stopChat ⟨[("state:u:s", (TaskState.FINISHED, 9))], [("other", [[]])]⟩
        "u" "s" =
      ⟨[("state:u:s", (TaskState.FINISHED, 9))], [("other", [[]])]⟩ :=
  (c8_idempotent_stop
      ⟨[("state:u:s", (TaskState.FINISHED, 9))], [("other", [[]])]⟩ "u" "s").2
    (Or.inl (by decide))

/-- Cancellation property of a single-character separator: if neither
left part contains the separator, splitting at it is unambiguous. -/
theorem sep_append_inj (sep : Char) (a b c d : List Char) (ha : sep ∉ a)
    (hb : sep ∉ b) (h : a ++ sep :: c = b ++ sep :: d) : a = b ∧ c = d := by
  induction a generalizing b with
  | nil =>
    cases b with
    | nil =>
      simp only [List.nil_append] at h
      exact ⟨rfl, (List.cons.injEq _ _ _ _ ▸ h).2⟩
    | cons y b2 =>
      simp only [List.nil_append, List.cons_append, List.cons.injEq] at h
      exact absurd (h.1 ▸ List.mem_cons_self y b2) hb
  | cons x a2 ih =>
    cases b with
    | nil =>
      simp only [List.cons_append, List.nil_append, List.cons.injEq] at h
      exact absurd (h.1 ▸ List.mem_cons_self x a2) ha
    | cons y b2 =>
      simp only [List.cons_append, List.cons.injEq] at h
      have ha2 : sep ∉ a2 := fun hm => ha (List.mem_cons_of_mem x hm)
      have hb2 : sep ∉ b2 := fun hm => hb (List.mem_cons_of_mem y hm)
      obtain ⟨hab, hcd⟩ := ih b2 ha2 hb2 h.2
      exact ⟨by rw [h.1, hab], hcd⟩

/-- C9 counterexample: the pairs `("a:b", "c")` and `("a", "b:c")` are
distinct, yet `_get_interrupt_key` maps both to the same task key
`"a:b:c"` — so distinct `(user_id, session_id)` pairs do not always get
distinct keys. -/
theorem c9_counterexample :
    getInterruptKey "a:b" "c" = getInterruptKey "a" "b:c"
    ∧ ("a:b", "c") ≠ (("a", "b:c") : String × String) :=
  ⟨rfl, by decide⟩

/-- C9 amended: for every two distinct pairs `(user_id, session_id)`
whose user ids do not contain the separator character `':'`, the task
keys derived by `_get_interrupt_key` are distinct.  (The unrestricted
claim fails: a `':'` inside `user_id` makes the concatenation
ambiguous.) -/
theorem c9_key_injective_amended (u1 s1 u2 s2 : String)
    (h1 : ':' ∉ u1.data) (h2 : ':' ∉ u2.data)
    (hne : (u1, s1) ≠ (u2, s2)) :
    getInterruptKey u1 s1 ≠ getInterruptKey u2 s2 := by
  intro hk
  have hd := congrArg String.data hk
  have hcolon : (":" : String).data = [':'] := rfl
  simp only [getInterruptKey, String.data_append, hcolon,
    List.append_assoc, List.singleton_append] at hd
  obtain ⟨hu, hs⟩ := sep_append_inj ':' u1.data u2.data s1.data s2.data h1 h2 hd
  exact hne (by rw [String.ext hu, String.ext hs])

/-- C9 witness: two distinct colon-free pairs receive distinct keys. -/
theorem c9_key_injective_amended_witness :
    getInterruptKey "alice" "s1" ≠ getInterruptKey "alice" "s2" :=
  c9_key_injective_amended "alice" "s1" "alice" "s2" (by decide) (by decide)
    (by decide)

/-- C10: in both backends, `delete_task_state` removes exactly the given
key's record, leaves every other key's record unchanged, and on a key
with no stored record it is a no-op (the local `pop(full_key, None)` and
the Redis `DEL` raise nothing either way). -/
theorem c10_delete_task_state (st : Store) (rst : RStore) (key : String) :
    lookupA (deleteTaskState st key) (getFullKey key) = none
    ∧ (∀ k2, k2 ≠ key →
        lookupA (deleteTaskState st key) (getFullKey k2) =
          lookupA st (getFullKey k2))
    ∧ (lookupA st (getFullKey key) = none → deleteTaskState st key = st)
    ∧ lookupA (redisDeleteTaskState rst key) (getFullKey key) = none
    ∧ (∀ k2, k2 ≠ key →
        lookupA (redisDeleteTaskState rst key) (getFullKey k2) =
          lookupA rst (getFullKey k2))
    ∧ (lookupA rst (getFullKey key) = none → redisDeleteTaskState rst key = rst) := by
  refine ⟨lookupA_eraseA_self _ _, fun k2 hk => ?_, fun h => ?_,
    lookupA_eraseA_self _ _, fun k2 hk => ?_, fun h => ?_⟩
  · exact lookupA_eraseA_ne st (getFullKey key) (getFullKey k2)
      (fun hc => hk (getFullKey_inj _ _ hc))
  · exact eraseA_lookup_none st (getFullKey key) h
  · exact lookupA_eraseA_ne rst (getFullKey key) (getFullKey k2)
      (fun hc => hk (getFullKey_inj _ _ hc))
  · exact eraseA_lookup_none rst (getFullKey key) h

/-- C10 witness: deleting "k" removes its record, keeps "k2"'s record,
and deleting an absent key is a no-op, for both backends. -/
theorem c10_delete_task_state_witness :
    lookupA (deleteTaskState [("state:k", (TaskState.IDLE, 3)),
        ("state:k2", (TaskState.ERROR, 4))] "k") (getFullKey "k") = none
    ∧ lookupA (deleteTaskState [("state:k", (TaskState.IDLE, 3)),
        ("state:k2", (TaskState.ERROR, 4))] "k") (getFullKey "k2") =
      lookupA [("state:k", (TaskState.IDLE, 3)),
        ("state:k2", (TaskState.ERROR, 4))] (getFullKey "k2")
    ∧ redisDeleteTaskState ([("state:k2", ("IDLE", 3))] : RStore) "k" =
      [("state:k2", ("IDLE", 3))] :=
  ⟨(c10_delete_task_state [("state:k", (TaskState.IDLE, 3)),
      ("state:k2", (TaskState.ERROR, 4))] [("state:k2", ("IDLE", 3))] "k").1,
   (c10_delete_task_state [("state:k", (TaskState.IDLE, 3)),
      ("state:k2", (TaskState.ERROR, 4))] [("state:k2", ("IDLE", 3))] "k").2.1
     "k2" (by decide),
   (c10_delete_task_state [("state:k", (TaskState.IDLE, 3)),
      ("state:k2", (TaskState.ERROR, 4))] [("state:k2", ("IDLE", 3))]
      "k").2.2.2.2.2 (by decide)⟩
